import Mathlib

/-!
Verification development for the `nmmd` multi-strategy dispatch engine
(`nmmd/base.py`, `nmmd/ext/regex.py`) and its `hercules` helpers
(`hercules/dict.py`, `hercules/decorators.py`).

The Python code is shallowly embedded: generators become explicit traces
(list of yielded items plus an optional terminal exception), the cached
attribute becomes explicit state passing, and owner objects become lookup
functions from attribute names to handler identities.  Delegation
(`try_delegation`) is not modelled: all theorems below concern owners that
define no same-named override, so every wrapped call falls through to the
default implementation, which is what is embedded.
-/

namespace Nmmd

/-- Engine exception taxonomy, from `nmmd/base.py` (`DispatchError`,
`DispatchInterrupt`, `ImplementationError`) and `hercules/dict.py`
(`KeyClobberError`). -/
inductive EngineErr where
  | dispatchError
  | dispatchInterrupt
  | implementationError
  | keyClobberError
  deriving DecidableEq

/-- Identity of a resolved handler (the underlying Python function a
`getattr` lookup returns; bound methods compare equal exactly when the
underlying function and instance agree, so within one owner the function
identity is what the membership test of `dedupe` sees). -/
abbrev Handler := String

/-- Name of a method on the owning object. -/
abbrev MethodName := String

/-- Owner object for the type dispatcher: maps an attribute name to the
handler (underlying function identity) that `getattr(inst, name, None)`
returns, or `none` when the attribute is missing.  Two attribute names may
map to the same handler (aliasing). -/
abbrev TOwner := String → Option Handler

/-- Loop body of `dedupe` in `nmmd/base.py`: walk the produced items with a
`seen` set, yielding only first occurrences.  The `seen` set is modelled as
the list of items already yielded (membership is all that is used). -/
def dedupeAux [DecidableEq α] (seen : List α) : List α → List α
  | [] => []
  | a :: rest =>
    if a ∈ seen then dedupeAux seen rest
    else a :: dedupeAux (a :: seen) rest

/-- The `dedupe` generator wrapper from `nmmd/base.py`, applied to a fully
materialised trace: keeps the first occurrence of each item, in order. -/
def dedupeList [DecidableEq α] (l : List α) : List α :=
  dedupeAux [] l

/-- The `seen` accumulator after processing a list of items. -/
def pushSeen [DecidableEq α] (seen : List α) (l : List α) : List α :=
  l.foldl (fun s a => if a ∈ s then s else a :: s) seen

/-- A dispatch token, characterised by the data the type dispatcher
inspects: the names of the classes in `type(token).__mro__` (in method
resolution order, ending with `object`), and the `isinstance` relation of
the token against a class identified by its `__name__`. -/
structure PyToken where
  mro : List String
  isinst : String → Bool

/-- The Python expression `type(token).__name__`: the first entry of the MRO. -/
def PyToken.typename (t : PyToken) : String :=
  t.mro.headD "object"

/-- The `method_prefix` class attribute of `TypeDispatcher` (resolved by
the `_method_prefix` cached attribute); named `methodPfx` here. -/
def methodPfx : String := "handle_"

/-- Environment model of the `__builtins__` namespace restricted to its
type members: `TypeDispatcher.gen_methods` looks up `type(token).__name__`
in it, which can only produce an `isinstance` match when the name denotes a
built-in type. -/
def builtinTypeNames : List String :=
  ["bool", "int", "float", "complex", "str", "list", "tuple", "dict",
   "set", "frozenset", "bytes", "bytearray", "memoryview", "range",
   "type", "object", "slice"]

/-- Model of `self.builtins.get(typename)`: the looked-up class is
identified by its `__name__`, which for a built-in type equals the key. -/
def builtinsGet (n : String) : Option String :=
  if n ∈ builtinTypeNames then some n else none

/-- The `interp_types` catalog of `TypeDispatcher`, as (attribute name in
the `types` module, `__name__` of the class it denotes).  The source holds
these in a Python `set`, whose iteration order is unspecified; the listing
order of the source is used here, and no theorem below depends on it. -/
def interpTypes : List (String × String) :=
  [("BuiltinFunctionType", "builtin_function_or_method"),
   ("BuiltinMethodType", "builtin_function_or_method"),
   ("CodeType", "code"),
   ("DynamicClassAttribute", "DynamicClassAttribute"),
   ("FrameType", "frame"),
   ("FunctionType", "function"),
   ("GeneratorType", "generator"),
   ("GetSetDescriptorType", "getset_descriptor"),
   ("LambdaType", "function"),
   ("MappingProxyType", "mappingproxy"),
   ("MemberDescriptorType", "member_descriptor"),
   ("MethodType", "method"),
   ("ModuleType", "module"),
   ("SimpleNamespace", "SimpleNamespace"),
   ("TracebackType", "traceback")]

/-- The `abc_types` catalog of `TypeDispatcher`: abstract-base-class names
looked up on the `collections` module; the `__name__` of each class equals its
key.  Held in a Python `set` in the source (unspecified iteration order,
listing order used here; no theorem depends on it). -/
def abcTypes : List String :=
  ["Hashable", "Iterable", "Iterator", "Sized", "Container", "Callable",
   "Set", "MutableSet", "Mapping", "MutableMapping", "MappingView",
   "KeysView", "ItemsView", "ValuesView", "Sequence", "MutableSequence",
   "ByteString"]

/-- The `generic_handler_aliases` tuple of `TypeDispatcher`. -/
def genericHandlerAliases : List String :=
  ["handle_anything", "generic_handler", "generic_handle"]

/-- `TypeDispatcher.gen_method_keys`: the names of the classes in
`type(token).__mro__[:-1]`, i.e. the MRO without its final entry
(`object`), nearest first. -/
def gen_method_keys (tok : PyToken) : List String :=
  tok.mro.dropLast

/-- `TypeDispatcher.check_basetype`: given a lookup key and the class it
denoted (identified by its `__name__`, `none` when the lookup failed),
yield the owner methods found under `<prefix><key>` and
`<prefix><class.__name__>` when the token is an instance of the class. -/
def check_basetype (inst : TOwner) (tok : PyToken) (key : String) :
    Option String → List Handler
  | none => []
  | some pyName =>
    if tok.isinst pyName then
      [key, pyName].filterMap (fun n => inst (methodPfx ++ n))
    else []

/-- `TypeDispatcher.gen_generic`: yield the owner methods found under the
generic-handler aliases, in alias order. -/
def gen_generic (inst : TOwner) : List Handler :=
  genericHandlerAliases.filterMap inst

/-- `TypeDispatcher.gen_methods` (wrapped in `dedupe`): the full candidate
walk — MRO names first, then the built-in type of the token, then the
`types`-module catalog, then the `collections` abstract classes, then the
generic aliases — with only first occurrences of each resolved handler
kept. -/
def genMethodsType (inst : TOwner) (tok : PyToken) : List Handler :=
  dedupeList (
    ((gen_method_keys tok).filterMap (fun k => inst (methodPfx ++ k)))
    ++ (check_basetype inst tok tok.typename (builtinsGet tok.typename)
      ++ ((interpTypes.flatMap (fun p => check_basetype inst tok p.1 (some p.2)))
        ++ ((abcTypes.flatMap (fun n => check_basetype inst tok n (some n)))
          ++ gen_generic inst))))

/-! Generic facts about the `dedupe` wrapper. -/

theorem dedupeAux_not_mem_seen [DecidableEq α] (l : List α) :
    ∀ (seen : List α) (x : α), x ∈ dedupeAux seen l → x ∉ seen := by
  induction l with
  | nil => intro seen x hx; simp [dedupeAux] at hx
  | cons a t ih =>
    intro seen x hx
    simp only [dedupeAux] at hx
    split at hx
    · exact ih seen x hx
    · rcases List.mem_cons.mp hx with h | h
      · subst h; assumption
      · intro hmem
        exact (ih (a :: seen) x h) (List.mem_cons_of_mem a hmem)

theorem dedupeAux_nodup [DecidableEq α] (l : List α) :
    ∀ seen : List α, (dedupeAux seen l).Nodup := by
  induction l with
  | nil => intro seen; simp [dedupeAux]
  | cons a t ih =>
    intro seen
    simp only [dedupeAux]
    split
    · exact ih seen
    · refine List.nodup_cons.mpr ⟨?_, ih (a :: seen)⟩
      intro hmem
      exact (dedupeAux_not_mem_seen t (a :: seen) a hmem) (List.mem_cons_self a seen)

theorem pushSeen_cons [DecidableEq α] (seen : List α) (a : α) (t : List α) :
    pushSeen seen (a :: t) = pushSeen (if a ∈ seen then seen else a :: seen) t := by
  simp [pushSeen, List.foldl]

theorem dedupeAux_append [DecidableEq α] (l1 : List α) :
    ∀ (seen l2 : List α),
      dedupeAux seen (l1 ++ l2) = dedupeAux seen l1 ++ dedupeAux (pushSeen seen l1) l2 := by
  induction l1 with
  | nil => intro seen l2; simp [dedupeAux, pushSeen]
  | cons a t ih =>
    intro seen l2
    simp only [List.cons_append, dedupeAux, pushSeen_cons]
    split
    · exact ih seen l2
    · simp only [List.cons_append, List.append_eq]
      rw [ih (a :: seen) l2]

/-! Concrete tokens and owners for the type-dispatch scenarios. -/

/-- The token `5`: its type is `int`, with MRO `(int, object)`; it is an
instance of `int`, `object` and (among the modelled catalogs) only the
abstract class `Hashable`. -/
def tokFive : PyToken :=
  { mro := ["int", "object"],
    isinst := fun n => n ∈ ["int", "object", "Hashable"] }

/-- The token `[1, 2]`: its type is `list`, with MRO `(list, object)`; it
is an instance of `list`, `object` and, among the modelled catalogs, the
abstract classes `Iterable`, `Sized`, `Container`, `Sequence` and
`MutableSequence` (lists are not hashable, not callable, not iterators). -/
def tokList : PyToken :=
  { mro := ["list", "object"],
    isinst := fun n =>
      n ∈ ["list", "object", "Iterable", "Sized", "Container",
           "Sequence", "MutableSequence"] }

/-- Owner for the end-to-end scenario: defines exactly `handle_int` and
`handle_Iterable` (each resolving to its own function), no `handle_list`
and no generic alias. -/
def ownerC1 : TOwner := fun n =>
  if n = "handle_int" then some "handle_int"
  else if n = "handle_Iterable" then some "handle_Iterable"
  else none

/-- Owner whose `handle_Iterable` and `handle_Sized` attributes are two
names for the same underlying function `catchall` (aliasing). -/
def ownerAlias : TOwner := fun n =>
  if n = "handle_Iterable" then some "catchall"
  else if n = "handle_Sized" then some "catchall"
  else none

/-- C1: the type-strategy resolution order of `TypeDispatcher.gen_methods`
puts the owner methods named after the ancestor types of the token — nearest to
farthest, the universal root `object` excluded — before every
builtin-type, runtime-category, capability-category and generic fallback
(the deduplicated MRO-phase yields are a prefix of the whole walk); in
particular token `5` against an owner with `handle_int` resolves to
`handle_int`, and token `[1, 2]` against an owner with `handle_Iterable`
but no `handle_list` resolves to `handle_Iterable`. -/
theorem c1_type_resolution_order :
    (∀ (inst : TOwner) (tok : PyToken),
      dedupeList ((gen_method_keys tok).filterMap (fun k => inst (methodPfx ++ k)))
        <+: genMethodsType inst tok)
    ∧ (genMethodsType ownerC1 tokFive).head? = some "handle_int"
    ∧ (genMethodsType ownerC1 tokList).head? = some "handle_Iterable" := by
  refine ⟨fun inst tok => ?_, by decide, by decide⟩
  unfold genMethodsType dedupeList
  exact ⟨_, (dedupeAux_append _ [] _).symm⟩

/-- C2: for every dispatch token and owner, `TypeDispatcher.gen_methods`
yields each resolved handler at most once across the whole walk (the
candidate list has no duplicates), even when the handler is reachable via
several ancestor or category names; concretely, an owner whose
`handle_Iterable` and `handle_Sized` are aliases of one function
`catchall` receives it exactly once for a list token. -/
theorem c2_dedup_across_walk :
    (∀ (inst : TOwner) (tok : PyToken), (genMethodsType inst tok).Nodup)
    ∧ genMethodsType ownerAlias tokList = ["catchall"] := by
  exact ⟨fun inst tok => dedupeAux_nodup _ [], by decide⟩

/-! Base (signature-strategy) `Dispatcher`, from `nmmd/base.py`.

Python generators are embedded as traces: the list of items the generator
yields, paired with an optional terminal exception raised after the last
yield (`none` means the generator ends by returning).  Consuming code sees
the items in order and then either a clean stop or the exception. -/

/-- Trace of a generator run: yielded items, then an optional raised
exception. -/
abbrev GenTrace (α : Type) := List α × Option EngineErr

/-- Semantics of calling a Python generator function: the call only
allocates the suspended generator — no body code runs — so the call itself
never raises; every effect of the body is observed through `pyGenNext`. -/
def pyGeneratorCall (trace : GenTrace α) : Except EngineErr (GenTrace α) :=
  .ok trace

/-- One `next()` step on a generator: produce the next yielded item, stop
cleanly (`none`), or raise the terminal exception. -/
def pyGenNext : GenTrace α → Except EngineErr (Option (α × GenTrace α))
  | ([], none) => .ok none
  | ([], some e) => .error e
  | (a :: rest, t) => .ok (some (a, (rest, t)))

/-- Keyword arguments: a Python dict keyed by argument name. -/
abbrev Kwargs (α : Type) := List (String × α)

/-- Dict lookup on an association list (first binding wins, as a dict with
unique keys has exactly one). -/
def alookup (l : Kwargs α) (k : String) : Option α :=
  match l with
  | [] => none
  | p :: t => if p.1 = k then some p.2 else alookup t k

/-- The duplicate test of `NoClobberDict.update` in `hercules/dict.py`:
true iff some key occurs in both dicts with differing values (equal
re-specification passes the check). -/
def clobbers [DecidableEq α] (self other : Kwargs α) : Bool :=
  other.any (fun p =>
    match alookup self p.1 with
    | some v => decide (v ≠ p.2)
    | none => false)

/-- Plain `dict.update`: bindings of `other` replace or extend those of
`self`. -/
def dictUpdate (self other : Kwargs α) : Kwargs α :=
  (self.filter (fun p => (alookup other p.1).isNone)) ++ other

/-- `NoClobberDict.update` as used by `Dispatcher.apply_handler` (called
with a positional dict and no extra keywords): raise `KeyClobberError`
when a shared key carries a differing value, else perform the plain
update. -/
def ncUpdate [DecidableEq α] (self other : Kwargs α) : Except EngineErr (Kwargs α) :=
  if clobbers self other then .error .keyClobberError
  else .ok (dictUpdate self other)

/-- A `method_data` item yielded by a `gen_methods` implementation: a bare
method, a `(method, args)` pair, or a `(method, args, kwargs)` triple. -/
inductive MethodData (α : Type) where
  | bare (m : Handler)
  | withArgs (m : Handler) (args : List α)
  | full (m : Handler) (args : List α) (kwargs : Kwargs α)
  deriving DecidableEq

/-- Evaluation of an owner handler: what calling the resolved method with
the given positional and keyword arguments returns (or raises).  Handlers
live on the owning object, outside the engine, so they enter the embedding
as a parameter. -/
abbrev HandlerEval (α : Type) := Handler → List α → Kwargs α → Except EngineErr α

/-- `Dispatcher.apply_handler`: wrap the call-time keywords in a
`NoClobberDict`; for a tuple, append the recorded positional arguments to
the call-time ones and (for a triple) merge the recorded keywords in under
the no-clobber rule; then call the method. -/
def applyHandler [DecidableEq α] (hEval : HandlerEval α) (md : MethodData α)
    (args : List α) (kwargs : Kwargs α) : Except EngineErr α :=
  match md with
  | .bare m => hEval m args kwargs
  | .withArgs m a => hEval m (args ++ a) kwargs
  | .full m a k =>
    match ncUpdate kwargs k with
    | .error e => .error e
    | .ok kw => hEval m (args ++ a) kw

/-- A signature-strategy registry entry: the registration-time invocation
(positional and keyword arguments; the pickle dump/load round-trip of the
source is modelled as the identity) paired with the handler method name. -/
abbrev SigRegistry (α : Type) := List ((List α × Kwargs α) × MethodName)

/-- `Dispatcher.gen_methods`: replay every registry entry as a
`(method, recorded_args, recorded_kwargs)` triple, in registry order.  With
an empty registry, yield the `generic_handler` of the owner (when present) with
the call-time arguments — and then fall through to raise `DispatchError`
either way (the raise is not guarded after the generic yield).  The method
name stands for the resolved handler (`getattr` on the owner). -/
def genMethodsSig (registry : SigRegistry α) (generic : Option Handler)
    (args : List α) (kwargs : Kwargs α) : GenTrace (MethodData α) :=
  match registry with
  | [] =>
    match generic with
    | some g => ([.full g args kwargs], some .dispatchError)
    | none => ([], some .dispatchError)
  | _ => (registry.map (fun r => .full r.2 r.1.1 r.1.2), none)

/-- Loop body of `Dispatcher.gen_dispatch`: pull candidates from the
`gen_methods` trace, apply each and yield its result, propagating any
exception; after a clean end of the candidates, raise `DispatchError` if
nothing was dispatched.  The `Bool` argument is the `dispatched` flag. -/
def consumeGen (applyF : β → Except EngineErr α) :
    List β → Option EngineErr → Bool → GenTrace α
  | [], term, dispatched =>
    ([], match term with
         | some e => some e
         | none => if dispatched then none else some .dispatchError)
  | md :: rest, term, _ =>
    match applyF md with
    | .error e => ([], some e)
    | .ok r =>
      let rt := consumeGen applyF rest term true
      (r :: rt.1, rt.2)

/-- Full consumption of `Dispatcher.gen_dispatch` for the signature
strategy. -/
def genDispatchSig [DecidableEq α] (registry : SigRegistry α) (generic : Option Handler)
    (hEval : HandlerEval α) (args : List α) (kwargs : Kwargs α) : GenTrace α :=
  let g := genMethodsSig registry generic args kwargs
  consumeGen (fun md => applyHandler hEval md args kwargs) g.1 g.2 false

/-- The act of calling `gen_dispatch`: a generator function call, which
returns the suspended generator (whose eventual trace is
`genDispatchSig`) without executing any body code, hence without raising. -/
def genDispatchCall [DecidableEq α] (registry : SigRegistry α) (generic : Option Handler)
    (hEval : HandlerEval α) (args : List α) (kwargs : Kwargs α) :
    Except EngineErr (GenTrace α) :=
  pyGeneratorCall (genDispatchSig registry generic hEval args kwargs)

/-- `Dispatcher.dispatch`: return the first result `gen_dispatch` yields;
an exception raised before the first yield propagates; a clean end with no
yield returns the Python value `None` (`none` here). -/
def firstResult (t : GenTrace α) : Except EngineErr (Option α) :=
  match t with
  | (r :: _, _) => .ok (some r)
  | ([], some e) => .error e
  | ([], none) => .ok none

/-- Single-mode dispatch for the signature strategy. -/
def dispatchSig [DecidableEq α] (registry : SigRegistry α) (generic : Option Handler)
    (hEval : HandlerEval α) (args : List α) (kwargs : Kwargs α) :
    Except EngineErr (Option α) :=
  firstResult (genDispatchSig registry generic hEval args kwargs)

/-- `Dispatcher.get_method`: the first candidate `gen_methods` yields; if
it yields none, the exception it raised propagates (or `get_method` raises
its own `DispatchError` after a clean end). -/
def getMethodSig (registry : SigRegistry α) (generic : Option Handler)
    (args : List α) (kwargs : Kwargs α) : Except EngineErr (MethodData α) :=
  match genMethodsSig registry generic args kwargs with
  | (m :: _, _) => .ok m
  | ([], some e) => .error e
  | ([], none) => .error .dispatchError

/-- Dict-lookup agrees with membership when the keys are distinct. -/
theorem alookup_of_nodup {α : Type} {l : Kwargs α} (h : (l.map Prod.fst).Nodup)
    {k : String} {v : α} (hm : (k, v) ∈ l) : alookup l k = some v := by
  induction l with
  | nil => simp at hm
  | cons p t ih =>
    rcases List.mem_cons.mp hm with rfl | hmt
    · simp [alookup]
    · have hk : p.1 ≠ k := by
        intro hpk
        have : k ∈ t.map Prod.fst := List.mem_map.mpr ⟨(k, v), hmt, rfl⟩
        rw [List.map_cons, List.nodup_cons] at h
        exact h.1 (hpk ▸ this)
      have ht : (t.map Prod.fst).Nodup := by
        rw [List.map_cons, List.nodup_cons] at h
        exact h.2
      simp [alookup, hk, ih ht hmt]

/-- Updating a no-clobber dict with itself passes the duplicate check and
leaves the dict unchanged (all duplicated values are equal). -/
theorem ncUpdate_self {α : Type} [DecidableEq α] (kwargs : Kwargs α)
    (h : (kwargs.map Prod.fst).Nodup) : ncUpdate kwargs kwargs = .ok kwargs := by
  have hc : clobbers kwargs kwargs = false := by
    simp only [clobbers, List.any_eq_false]
    intro p hp
    rw [alookup_of_nodup h hp]
    simp
  have hd : dictUpdate kwargs kwargs = kwargs := by
    have : kwargs.filter (fun p => (alookup kwargs p.1).isNone) = [] := by
      rw [List.filter_eq_nil_iff]
      intro p hp
      rw [alookup_of_nodup h hp]
      simp
    simp [dictUpdate, this]
  simp [ncUpdate, hc, hd]

/-! Concrete handler evaluations used by witnesses and counterexamples. -/

/-- Handler evaluation in which every handler returns `0`. -/
def hEvalZero : HandlerEval Nat := fun _ _ _ => .ok 0

/-- Handler evaluation in which every handler returns `7`. -/
def hEvalSeven : HandlerEval Nat := fun _ _ _ => .ok 7

/-- Handler evaluation in which every handler raises `DispatchInterrupt`. -/
def hEvalInterrupt : HandlerEval Nat := fun _ _ _ => .error .dispatchInterrupt

/-- C10 (implicit): for the base signature `Dispatcher` with an empty
registry and an owner defining `generic_handler`, `gen_methods` yields the
generic handler once, paired with the call-time arguments, and — if
advanced past that yield — raises `DispatchError`; hence single-mode
`get_method` and `dispatch` succeed through the generic handler, while
fully consuming `gen_dispatch` in multi mode raises `DispatchError` after
producing the result of the generic handler.  (`apply_handler` re-appends the
call-time positionals recorded in the yield, so the handler runs on
`args ++ args`.) -/
theorem c10_empty_registry_generic_handler (α : Type) [DecidableEq α]
    (g : Handler) (hEval : HandlerEval α) (args : List α) (kwargs : Kwargs α) (v : α)
    (hk : (kwargs.map Prod.fst).Nodup)
    (hg : hEval g (args ++ args) kwargs = .ok v) :
    genMethodsSig (α := α) [] (some g) args kwargs
        = ([.full g args kwargs], some .dispatchError)
    ∧ pyGenNext (genMethodsSig (α := α) [] (some g) args kwargs)
        = .ok (some (.full g args kwargs, ([], some .dispatchError)))
    ∧ pyGenNext (([] : List (MethodData α)), some EngineErr.dispatchError)
        = .error .dispatchError
    ∧ getMethodSig (α := α) [] (some g) args kwargs = .ok (.full g args kwargs)
    ∧ dispatchSig [] (some g) hEval args kwargs = .ok (some v)
    ∧ genDispatchSig [] (some g) hEval args kwargs = ([v], some .dispatchError) := by
  have happ : applyHandler hEval (.full g args kwargs) args kwargs = .ok v := by
    simp [applyHandler, ncUpdate_self kwargs hk, hg]
  have hrun : genDispatchSig [] (some g) hEval args kwargs = ([v], some .dispatchError) := by
    simp [genDispatchSig, genMethodsSig, consumeGen, happ]
  exact ⟨rfl, rfl, rfl, rfl, by simp [dispatchSig, firstResult, hrun], hrun⟩

/-- C10 witness: the theorem applied at a concrete input (one positional
argument `1`, keyword `x := 5`, a generic handler returning `0`). -/
theorem c10_empty_registry_generic_handler_witness :
    ((([("x", 5)] : Kwargs Nat).map Prod.fst).Nodup
      ∧ hEvalZero "g" ([1] ++ [1]) [("x", 5)] = .ok 0)
    ∧ dispatchSig [] (some "g") hEvalZero [1] [("x", 5)] = .ok (some 0)
    ∧ genDispatchSig [] (some "g") hEvalZero [1] [("x", 5)] = ([0], some .dispatchError) :=
  ⟨⟨by decide, rfl⟩,
   (c10_empty_registry_generic_handler Nat "g" hEvalZero [1] [("x", 5)] 0
      (by decide) rfl).2.2.2.2.1,
   (c10_empty_registry_generic_handler Nat "g" hEvalZero [1] [("x", 5)] 0
      (by decide) rfl).2.2.2.2.2⟩

/-- C4 counterexample: with zero candidates (empty registry, no generic
handler) the call `gen_dispatch(token)` itself raises nothing — it returns
the lazy generator — and the `DispatchError` only appears on the first
`next()`.  The claim that the error is raised up front at the call, not on
first consumption, is therefore false on the code. -/
theorem c4_counterexample :
    genDispatchCall (α := Nat) [] none hEvalZero [0] []
        = .ok ([], some .dispatchError)
    ∧ pyGenNext (([] : List Nat), some EngineErr.dispatchError)
        = .error .dispatchError := ⟨rfl, rfl⟩

/-- C4 (amended): `gen_dispatch` with zero candidates raises
`DispatchError` before yielding any result, but lazily on first
consumption of the returned generator — the call itself returns the
suspended generator without failing, since the body of a generator
function does not run at call time. -/
theorem c4_zero_candidates_error_on_first_next (α : Type) [DecidableEq α]
    (hEval : HandlerEval α) (args : List α) (kwargs : Kwargs α) :
    genDispatchCall [] none hEval args kwargs
        = .ok ([], some .dispatchError)
    ∧ pyGenNext (genDispatchSig [] none hEval args kwargs)
        = .error .dispatchError := ⟨rfl, rfl⟩

/-- C9 counterexample: a handler that raises `DispatchInterrupt` during
multi-mode consumption makes `gen_dispatch` surface the interrupt to the
caller (the consumed trace ends in the raised `DispatchInterrupt`), rather
than absorbing it as a normal termination of the sequence. -/
theorem c9_counterexample :
    genDispatchSig [((([] : List Nat), []), "h")] none hEvalInterrupt [] []
        = ([], some .dispatchInterrupt)
    ∧ pyGenNext (genDispatchSig [((([] : List Nat), []), "h")] none hEvalInterrupt [] [])
        = .error .dispatchInterrupt := ⟨rfl, rfl⟩

/-- C9 (amended): every exception a handler raises during multi-mode
dispatch — `DispatchError`, `ImplementationError`, the no-clobber error,
and also `DispatchInterrupt` — propagates unmodified through the
`gen_dispatch` boundary to the caller; nothing is caught, converted or
absorbed. -/
theorem c9_errors_propagate_unmodified (α : Type) [DecidableEq α]
    (e : EngineErr) (hEval : HandlerEval α) (inv : List α × Kwargs α)
    (name : MethodName) (generic : Option Handler) (args : List α) (kwargs : Kwargs α)
    (h : applyHandler hEval (.full name inv.1 inv.2) args kwargs = .error e) :
    genDispatchSig [(inv, name)] generic hEval args kwargs = ([], some e)
    ∧ firstResult (genDispatchSig [(inv, name)] generic hEval args kwargs)
        = .error e := by
  have hrun : genDispatchSig [(inv, name)] generic hEval args kwargs = ([], some e) := by
    simp [genDispatchSig, genMethodsSig, consumeGen, h]
  exact ⟨hrun, by simp [firstResult, hrun]⟩

/-- C9 witness: the amended theorem applied to a handler raising
`DispatchInterrupt`. -/
theorem c9_errors_propagate_unmodified_witness :
    applyHandler hEvalInterrupt (.full "h" [] []) [] [] = .error .dispatchInterrupt
    ∧ genDispatchSig [((([] : List Nat), []), "h")] none hEvalInterrupt [] []
        = ([], some .dispatchInterrupt) :=
  ⟨rfl,
   (c9_errors_propagate_unmodified Nat .dispatchInterrupt hEvalInterrupt
      ([], []) "h" none [] [] rfl).1⟩

/-- C5 counterexample: a call-time keyword that duplicates one recorded at
registration time with the very same value does not raise the no-clobber
error — `NoClobberDict.update` only rejects differing values — so
dispatch succeeds.  The claim that any duplicated keyword raises is
therefore false on the code. -/
theorem c5_counterexample :
    dispatchSig [((([] : List Nat), [("x", 5)]), "h")] none hEvalZero [] [("x", 5)]
        = .ok (some 0) := by rfl

/-- C5 (amended): after registering a handler with key arguments `(1, 2)`,
dispatch with the non-colliding keyword `x := 5` succeeds and the handler
receives the positional arguments `(1, 2)` together with `x := 5`; a
call-time keyword duplicating a recorded one raises the no-clobber
`KeyClobberError` exactly when its value differs from the recorded one
(equal re-specification is silently accepted). -/
theorem c5_signature_merge_no_clobber (hEval : HandlerEval Nat) (v : Nat)
    (h1 : hEval "h" [1, 2] [("x", 5)] = .ok v) :
    dispatchSig [(([1, 2], []), "h")] none hEval [] [("x", 5)] = .ok (some v)
    ∧ (∀ w : Nat, w ≠ 5 →
        dispatchSig [((([] : List Nat), [("x", w)]), "h")] none hEval [] [("x", 5)]
          = .error .keyClobberError) := by
  constructor
  · simp [dispatchSig, genDispatchSig, genMethodsSig, consumeGen, applyHandler,
      ncUpdate, clobbers, dictUpdate, alookup, firstResult, h1]
  · intro w hw
    have hwx : (5 : Nat) ≠ w := fun h => hw h.symm
    simp [dispatchSig, genDispatchSig, genMethodsSig, consumeGen, applyHandler,
      ncUpdate, clobbers, alookup, firstResult, hwx]

/-- C5 witness: the amended theorem applied to a handler returning `7`,
together with the differing-value clobber case at `w := 9`. -/
theorem c5_signature_merge_no_clobber_witness :
    (hEvalSeven "h" [1, 2] [("x", 5)] = .ok 7 ∧ (9 : Nat) ≠ 5)
    ∧ dispatchSig [(([1, 2], []), "h")] none hEvalSeven [] [("x", 5)] = .ok (some 7)
    ∧ dispatchSig [((([] : List Nat), [("x", 9)]), "h")] none hEvalSeven [] [("x", 5)]
        = .error .keyClobberError :=
  ⟨⟨rfl, by decide⟩,
   (c5_signature_merge_no_clobber hEvalSeven 7 rfl).1,
   (c5_signature_merge_no_clobber hEvalSeven 7 rfl).2 9 (by decide)⟩

/-! Pattern strategy: `RegexDispatcher`, from `nmmd/ext/regex.py`. -/

/-- Values flowing through a regex dispatch: the token text and the match
object a successful `rgx.match(text)` returns (identified by the pattern
that produced it; the engine only passes it through to the handler). -/
inductive RVal where
  | str (s : String)
  | matchObj (pat : String)
  deriving DecidableEq

/-- A compiled pattern: its source text and the truthiness of
`rgx.match(text)` as a function of the text. -/
structure CompiledRgx where
  pat : String
  test : String → Bool

/-- Owner object for the regex dispatcher: `getattr(inst, methodname)`
resolution for registered handler names (all registered names are assumed
to exist on the owner, as the unguarded `getattr` of the source requires), and
the optional `generic_handler`. -/
structure RgxInst where
  methods : MethodName → Handler
  generic : Option Handler

/-- Character-level prefix test (the semantics of matching a plain literal
at the start of a string). -/
def strIsPfx (p s : String) : Bool :=
  p.data.isPrefixOf s.data

/-- Drop a single leading caret from a pattern, if present. -/
def stripCaret (p : String) : String :=
  match p.data with
  | c :: rest => if c = '^' then String.mk rest else p
  | [] => p

/-- Models `re.compile` for the plain-literal patterns exercised here
(an optional leading `^` followed by literal characters): `re.match`
anchors at the start of the text either way, so the compiled pattern
matches exactly when the literal is a prefix of the text. -/
def reCompile (p : String) : CompiledRgx :=
  { pat := p, test := fun t => strIsPfx (stripCaret p) t }

/-- `RegexDispatcher.prepare`: compile every registered pattern, keeping
registry order (the pickle round-trip of the registration arguments is
modelled as the identity). -/
def prepareRgx (registry : List (String × MethodName)) :
    List (CompiledRgx × MethodName) :=
  registry.map (fun r => (reCompile r.1, r.2))

/-- The pattern-phase yields of `RegexDispatcher.gen_methods`: for each
prepared entry whose pattern matches the text, in order, the resolved
method paired with `(text, matchobj)`. -/
def rgxHits (data : List (CompiledRgx × MethodName)) (inst : RgxInst)
    (text : String) : List (MethodData RVal) :=
  data.filterMap (fun pm =>
    if pm.1.test text then
      some (.withArgs (inst.methods pm.2) [.str text, .matchObj pm.1.pat])
    else none)

/-- `RegexDispatcher.gen_methods`: the pattern-phase yields followed
(unconditionally) by the `generic_handler` of the owner when it exists; the
generator then ends cleanly — it raises nothing itself. -/
def genMethodsRgx (data : List (CompiledRgx × MethodName)) (inst : RgxInst)
    (text : String) : GenTrace (MethodData RVal) :=
  (rgxHits data inst text
    ++ (match inst.generic with | some g => [.bare g] | none => []), none)

/-- `RegexDispatcher.apply_handler` (the override in `nmmd/ext/regex.py`):
for a tuple the recorded arguments replace the call-time ones entirely;
a bare method gets the call-time arguments. -/
def applyHandlerRgx (hEval : HandlerEval RVal) (md : MethodData RVal)
    (args : List RVal) (kwargs : Kwargs RVal) : Except EngineErr RVal :=
  match md with
  | .bare m => hEval m args kwargs
  | .withArgs m a => hEval m a kwargs
  | .full m a k => hEval m a k

/-- Full consumption of `gen_dispatch` for the regex strategy; the
dispatch call is `dispatch(text)`, so the call-time arguments are the text
alone with no keywords. -/
def genDispatchRgx (data : List (CompiledRgx × MethodName)) (inst : RgxInst)
    (text : String) (hEval : HandlerEval RVal) : GenTrace RVal :=
  let g := genMethodsRgx data inst text
  consumeGen (fun md => applyHandlerRgx hEval md [RVal.str text] []) g.1 g.2 false

/-- Single-mode dispatch for the regex strategy. -/
def dispatchRgx (data : List (CompiledRgx × MethodName)) (inst : RgxInst)
    (text : String) (hEval : HandlerEval RVal) : Except EngineErr (Option RVal) :=
  firstResult (genDispatchRgx data inst text hEval)

/-- `Dispatcher.get_method` over the regex candidate walk. -/
def getMethodRgx (data : List (CompiledRgx × MethodName)) (inst : RgxInst)
    (text : String) : Except EngineErr (MethodData RVal) :=
  match genMethodsRgx data inst text with
  | (m :: _, _) => .ok m
  | ([], some e) => .error e
  | ([], none) => .error .dispatchError

/-- When no pattern matches the text, the pattern phase yields nothing. -/
theorem rgxHits_eq_nil {data : List (CompiledRgx × MethodName)} {inst : RgxInst}
    {text : String} (h : ∀ pm ∈ data, pm.1.test text = false) :
    rgxHits data inst text = [] := by
  rw [rgxHits, List.filterMap_eq_nil_iff]
  intro pm hpm
  simp [h pm hpm]

/-- The first matching pattern heads the candidate walk: entries before it
all fail, so its yield is the first one. -/
theorem rgxHits_first_match (pre : List (CompiledRgx × MethodName))
    (p : CompiledRgx) (m : MethodName) (rest : List (CompiledRgx × MethodName))
    (inst : RgxInst) (text : String)
    (hpre : ∀ pm ∈ pre, pm.1.test text = false) (hp : p.test text = true) :
    rgxHits (pre ++ (p, m) :: rest) inst text
      = .withArgs (inst.methods m) [.str text, .matchObj p.pat]
          :: rgxHits rest inst text := by
  have hsplit : rgxHits (pre ++ (p, m) :: rest) inst text
      = rgxHits pre inst text ++ rgxHits ((p, m) :: rest) inst text := by
    simp [rgxHits, List.filterMap_append]
  rw [hsplit, rgxHits_eq_nil hpre]
  simp [rgxHits, hp]

/-- Owner for the concrete pattern scenarios: every registered name
resolves to itself; no generic handler. -/
def instC3 : RgxInst := { methods := fun n => n, generic := none }

/-- Owner with a `generic_handler` attribute; registered names resolve to
themselves. -/
def instGeneric : RgxInst := { methods := fun n => n, generic := some "generic_handler" }

/-- Handler evaluation in which every regex handler returns the marker
result `RVal.str "r"`. -/
def hEvalRgx : HandlerEval RVal := fun _ _ _ => .ok (RVal.str "r")

/-- C3: registry order is preserved (preparation keeps the registered
order) and is the tie-break for the pattern strategy: with two
registrations both matching the token text, single-mode dispatch selects
the first-registered one and returns the result of its handler; in particular
with `P1` the pattern `^a` and `P2` the pattern `^ab` registered in that order and
token text `abc`, single-mode `get_method` resolves to the handler of
`P1`, bound with the match of `P1`. -/
theorem c3_registration_order_tie_break :
    (∀ r : List (String × MethodName), (prepareRgx r).map Prod.snd = r.map Prod.snd)
    ∧ (∀ (p1 p2 : CompiledRgx) (m1 m2 : MethodName) (inst : RgxInst) (text : String)
        (hEval : HandlerEval RVal) (v : RVal),
        p1.test text = true → p2.test text = true →
        hEval (inst.methods m1) [.str text, .matchObj p1.pat] [] = .ok v →
        getMethodRgx [(p1, m1), (p2, m2)] inst text
            = .ok (.withArgs (inst.methods m1) [.str text, .matchObj p1.pat])
          ∧ dispatchRgx [(p1, m1), (p2, m2)] inst text hEval = .ok (some v))
    ∧ getMethodRgx (prepareRgx [("^a", "m1"), ("^ab", "m2")]) instC3 "abc"
        = .ok (.withArgs "m1" [.str "abc", .matchObj "^a"]) := by
  refine ⟨fun r => by simp [prepareRgx], ?_, by rfl⟩
  intro p1 p2 m1 m2 inst text hEval v h1 h2 h3
  constructor
  · simp [getMethodRgx, genMethodsRgx, rgxHits, h1, h2]
  · simp [dispatchRgx, genDispatchRgx, genMethodsRgx, rgxHits, h1, h2,
      consumeGen, applyHandlerRgx, h3, firstResult]

/-- C3 witness: the general tie-break applied to the concrete patterns
`^a` and `^ab` on text `abc`. -/
theorem c3_registration_order_tie_break_witness :
    ((reCompile "^a").test "abc" = true ∧ (reCompile "^ab").test "abc" = true
      ∧ hEvalRgx (instC3.methods "m1") [.str "abc", .matchObj "^a"] [] = .ok (.str "r"))
    ∧ dispatchRgx [(reCompile "^a", "m1"), (reCompile "^ab", "m2")] instC3 "abc" hEvalRgx
        = .ok (some (.str "r")) :=
  ⟨⟨rfl, rfl, rfl⟩,
   ((c3_registration_order_tie_break.2.1 (reCompile "^a") (reCompile "^ab")
      "m1" "m2" instC3 "abc" hEvalRgx (.str "r") rfl rfl rfl).2)⟩

/-- C7: pattern-strategy fallback — when no registered pattern matches the
token text, single-mode dispatch resolves to the owner method
`generic_handler`; when no pattern matches and no `generic_handler`
exists, dispatch fails with `DispatchError`; and when some pattern does
match, `get_method` resolves to the handler of the first matching pattern, not
to the generic fallback. -/
theorem c7_regex_generic_fallback :
    (∀ (data : List (CompiledRgx × MethodName)) (inst : RgxInst) (text : String)
       (hEval : HandlerEval RVal) (g : Handler) (v : RVal),
       (∀ pm ∈ data, pm.1.test text = false) → inst.generic = some g →
       hEval g [.str text] [] = .ok v →
       getMethodRgx data inst text = .ok (.bare g)
       ∧ dispatchRgx data inst text hEval = .ok (some v))
    ∧ (∀ (data : List (CompiledRgx × MethodName)) (inst : RgxInst) (text : String)
       (hEval : HandlerEval RVal),
       (∀ pm ∈ data, pm.1.test text = false) → inst.generic = none →
       genDispatchRgx data inst text hEval = ([], some .dispatchError)
       ∧ dispatchRgx data inst text hEval = .error .dispatchError)
    ∧ (∀ (pre : List (CompiledRgx × MethodName)) (p : CompiledRgx) (m : MethodName)
       (rest : List (CompiledRgx × MethodName)) (inst : RgxInst) (text : String),
       (∀ pm ∈ pre, pm.1.test text = false) → p.test text = true →
       getMethodRgx (pre ++ (p, m) :: rest) inst text
         = .ok (.withArgs (inst.methods m) [.str text, .matchObj p.pat])) := by
  refine ⟨?_, ?_, ?_⟩
  · intro data inst text hEval g v hfail hg hv
    constructor
    · simp [getMethodRgx, genMethodsRgx, rgxHits_eq_nil hfail, hg]
    · simp [dispatchRgx, genDispatchRgx, genMethodsRgx, rgxHits_eq_nil hfail, hg,
        consumeGen, applyHandlerRgx, hv, firstResult]
  · intro data inst text hEval hfail hg
    constructor
    · simp [genDispatchRgx, genMethodsRgx, rgxHits_eq_nil hfail, hg, consumeGen]
    · simp [dispatchRgx, genDispatchRgx, genMethodsRgx, rgxHits_eq_nil hfail, hg,
        consumeGen, firstResult]
  · intro pre p m rest inst text hpre hp
    simp [getMethodRgx, genMethodsRgx, rgxHits_first_match pre p m rest inst text hpre hp]

/-- C7 witness: the three parts applied to concrete inputs — the
non-matching pattern `^zz` against text `abc` with and without a generic
handler, and the matching pattern `^a` ahead of a generic handler. -/
theorem c7_regex_generic_fallback_witness :
    ((∀ pm ∈ prepareRgx [("^zz", "m1")], pm.1.test "abc" = false)
      ∧ instGeneric.generic = some "generic_handler"
      ∧ hEvalRgx "generic_handler" [.str "abc"] [] = .ok (.str "r")
      ∧ instC3.generic = none
      ∧ (reCompile "^a").test "abc" = true)
    ∧ dispatchRgx (prepareRgx [("^zz", "m1")]) instGeneric "abc" hEvalRgx
        = .ok (some (.str "r"))
    ∧ dispatchRgx (prepareRgx [("^zz", "m1")]) instC3 "abc" hEvalRgx
        = .error .dispatchError
    ∧ getMethodRgx ([] ++ (reCompile "^a", "m1") :: [(reCompile "^zz", "m2")])
        instGeneric "abc"
        = .ok (.withArgs "m1" [.str "abc", .matchObj "^a"]) :=
  ⟨⟨by decide, rfl, rfl, rfl, rfl⟩,
   (c7_regex_generic_fallback.1 (prepareRgx [("^zz", "m1")]) instGeneric "abc"
      hEvalRgx "generic_handler" (.str "r") (by decide) rfl rfl).2,
   (c7_regex_generic_fallback.2.1 (prepareRgx [("^zz", "m1")]) instC3 "abc"
      hEvalRgx (by decide) rfl).2,
   c7_regex_generic_fallback.2.2 [] (reCompile "^a") "m1" [(reCompile "^zz", "m2")]
      instGeneric "abc" (by simp) rfl⟩

/-! Preparation cache and registration, from `hercules/decorators.py`
(`CachedAttr`) and `nmmd/base.py` (`BaseDispatcher.dispatch_data`,
`Dispatcher.register`).

`CachedAttr.__get__` computes the wrapped method once and stores the
result as an instance attribute of the same name; being a non-data
descriptor, it is shadowed by that attribute on every later access, so
the computation reruns only if the owner deletes the cached attribute.
This attribute mechanics is embedded as explicit state: a dispatcher
instance carries its registry, the optional cached `dispatch_data` value,
and a counter of how many times `prepare` has run. -/

/-- Mutable state of one dispatcher instance: the registry (entries of
type `ε`), the `dispatch_data` cache (values of type `δ`), and the number
of `prepare` runs so far. -/
structure DispState (δ ε : Type) where
  registry : List ε
  cache : Option δ
  prepareCount : Nat
  deriving DecidableEq

/-- An access to `self.dispatch_data`: return the cached value if the
instance attribute is set; otherwise run `prepare` on the registry, store
the result on the instance, and return it. -/
def dispatchDataGet (prepareFn : List ε → δ) (st : DispState δ ε) :
    δ × DispState δ ε :=
  match st.cache with
  | some d => (d, st)
  | none =>
    let d := prepareFn st.registry
    (d, { st with cache := some d, prepareCount := st.prepareCount + 1 })

/-- Explicit cache invalidation by the owner (`del inst.dispatch_data`). -/
def delDispatchData (st : DispState δ ε) : DispState δ ε :=
  { st with cache := none }

/-- `Dispatcher.register`: serialise the decorator invocation and append
the entry to the registry.  The source performs no check of any kind —
in particular it never consults the `dispatch_data` cache — so the result
type `Except` (which the claimed failure mode needs) always carries a
success. -/
def register (st : DispState δ ε) (e : ε) : Except EngineErr (DispState δ ε) :=
  .ok { st with registry := st.registry ++ [e] }

/-- A sequence of `n` consecutive `dispatch_data` accesses (one per
dispatch call that consults the prepared data). -/
def iterGet (prepareFn : List ε → δ) : Nat → DispState δ ε → DispState δ ε
  | 0, st => st
  | n + 1, st => iterGet prepareFn n (dispatchDataGet prepareFn st).2

/-- An access on a filled cache returns the cached value and leaves the
state untouched. -/
theorem dispatchDataGet_of_some (prepareFn : List ε → δ) (st : DispState δ ε)
    (d : δ) (h : st.cache = some d) : dispatchDataGet prepareFn st = (d, st) := by
  simp [dispatchDataGet, h]

/-- After any access the cache is filled. -/
theorem dispatchDataGet_fills (prepareFn : List ε → δ) (st : DispState δ ε) :
    ((dispatchDataGet prepareFn st).2.cache).isSome = true := by
  match h : st.cache with
  | some d => simp [dispatchDataGet, h]
  | none => simp [dispatchDataGet, h]

/-- Accesses on a filled cache never change the state. -/
theorem iterGet_of_some (prepareFn : List ε → δ) (n : Nat) :
    ∀ (st : DispState δ ε), st.cache.isSome = true → iterGet prepareFn n st = st := by
  induction n with
  | zero => intro st _; rfl
  | succ m ih =>
    intro st h
    obtain ⟨d, hd⟩ := Option.isSome_iff_exists.mp h
    simp [iterGet, dispatchDataGet_of_some prepareFn st d hd, ih st h]

/-- C6 counterexample: on an instance whose `dispatch_data` has already
been computed and cached, `register` does not raise `ImplementationError`
— it succeeds and appends silently. -/
theorem c6_counterexample :
    register (⟨[1], some 0, 1⟩ : DispState Nat Nat) 2 = .ok ⟨[1, 2], some 0, 1⟩ := rfl

/-- C6 (amended): `register` called after the prepared data has been
computed and cached does not fail — the source checks nothing, so the
entry is appended to the registry unconditionally and the late
registration is silently accepted, never rejected with
`ImplementationError`. -/
theorem c6_register_after_prepare_appends (δ ε : Type) (st : DispState δ ε)
    (d : δ) (e : ε) :
    register { st with cache := some d } e
      = .ok { st with cache := some d, registry := st.registry ++ [e] } := rfl

/-- C8: the prepared data is computed at most once per dispatcher
instance — across any positive number of accesses, `prepare` runs exactly
once starting from an empty cache and zero times starting from a filled
one, after which the cache is filled — and recomputation happens exactly
when the owner explicitly invalidates the cache (deleting the cached
attribute makes the next access run `prepare` once more). -/
theorem c8_prepare_runs_once (δ ε : Type) (prepareFn : List ε → δ)
    (st : DispState δ ε) (n : Nat) (h : 0 < n) :
    (iterGet prepareFn n st).prepareCount
        = st.prepareCount + (if st.cache.isSome then 0 else 1)
    ∧ ((iterGet prepareFn n st).cache).isSome = true
    ∧ (∀ st2 : DispState δ ε,
        (dispatchDataGet prepareFn (delDispatchData st2)).2.prepareCount
          = st2.prepareCount + 1) := by
  obtain ⟨m, rfl⟩ : ∃ m, n = m + 1 := ⟨n - 1, (Nat.succ_pred_eq_of_pos h).symm⟩
  have hinv : ∀ st2 : DispState δ ε,
      (dispatchDataGet prepareFn (delDispatchData st2)).2.prepareCount
        = st2.prepareCount + 1 := by
    intro st2; simp [dispatchDataGet, delDispatchData]
  match hc : st.cache with
  | some d =>
    have hstep : iterGet prepareFn (m + 1) st = st := by
      simp [iterGet, dispatchDataGet_of_some prepareFn st d hc,
        iterGet_of_some prepareFn m st (by simp [hc])]
    refine ⟨?_, ?_, hinv⟩
    · simp [hstep, hc]
    · simp [hstep, hc]
  | none =>
    have hstep : iterGet prepareFn (m + 1) st
        = { st with cache := some (prepareFn st.registry),
                    prepareCount := st.prepareCount + 1 } := by
      have h2 : (dispatchDataGet prepareFn st).2
          = { st with cache := some (prepareFn st.registry),
                      prepareCount := st.prepareCount + 1 } := by
        simp [dispatchDataGet, hc]
      simp only [iterGet, h2]
      exact iterGet_of_some prepareFn m _ (by simp)
    refine ⟨?_, ?_, hinv⟩
    · simp [hstep, hc]
    · simp [hstep]

/-- C8 witness: three accesses on a fresh instance run `prepare` exactly
once and leave the cache filled; an access after explicit invalidation
runs it once more. -/
theorem c8_prepare_runs_once_witness :
    0 < 3
    ∧ (iterGet (fun l : List Nat => l.length) 3 ⟨[5, 6], none, 0⟩).prepareCount = 1
    ∧ ((iterGet (fun l : List Nat => l.length) 3 ⟨[5, 6], none, 0⟩).cache).isSome = true
    ∧ (dispatchDataGet (fun l : List Nat => l.length)
        (delDispatchData ⟨[5, 6], some 2, 1⟩)).2.prepareCount = 1 + 1 :=
  ⟨by decide,
   (c8_prepare_runs_once Nat Nat (fun l => l.length) ⟨[5, 6], none, 0⟩ 3 (by decide)).1,
   (c8_prepare_runs_once Nat Nat (fun l => l.length) ⟨[5, 6], none, 0⟩ 3 (by decide)).2.1,
   (c8_prepare_runs_once Nat Nat (fun l => l.length) ⟨[5, 6], some 2, 1⟩ 3 (by decide)).2.2
     ⟨[5, 6], some 2, 1⟩⟩

end Nmmd
